import Mathlib

/-!
Verification development for the onlineQuiz single-page application
(src/index.tsx).  The quiz session engine of the QuizApp class is embedded
shallowly: the mutable fields of the class become an explicit AppState
record and each method becomes a state-passing function.  Browser rendering
is dropped except where it carries engine behaviour (the answer-selection
listener of renderQuestion, the option classification of
renderReviewQuestion, the message branch of renderStudentResult, and the
out-of-bounds question access of renderQuestion that makes startQuiz fail
on an empty quiz).
-/

/-- MCQ record (src/index.tsx lines 13-18). -/
structure MCQ where
  question : String
  options : List String
  correctAnswer : String
  expl : Option String
deriving DecidableEq, Repr

/-- Quiz record (src/index.tsx lines 20-25).  The duration is in minutes. -/
structure Quiz where
  id : String
  title : String
  questions : List MCQ
  duration : Nat
deriving DecidableEq, Repr

/-- StudentResult record (src/index.tsx lines 27-35). -/
structure StudentResult where
  quizId : String
  studentName : String
  studentRoll : String
  studentEmail : String
  score : Nat
  total : Nat
  answers : List (Option String)
deriving DecidableEq, Repr

/-- The taker identity saved under the currentStudentInfo storage key
(src/index.tsx line 211). -/
structure StudentInfo where
  name : String
  roll : String
  email : String
deriving DecidableEq, Repr

/-- The mutable fields of the QuizApp class (src/index.tsx lines 42-52)
made explicit.  quizTimerInterval holds the armed countdown: the absolute
end time captured by startTimer, or none when no interval is running. -/
structure AppState where
  professors : List (String × String)
  quizzes : List (String × Quiz)
  results : List StudentResult
  activeQuiz : Option Quiz
  studentAnswers : List (Option String)
  currentQuestionIndex : Nat
  quizTimerInterval : Option Int
  reviewingResult : Option StudentResult
  currentStudentInfo : Option StudentInfo
deriving DecidableEq, Repr

/-- The fresh application state: empty simulated database, no active
attempt (the initial values of the fields at lines 43-52). -/
def initialState : AppState :=
  { professors := [], quizzes := [], results := [], activeQuiz := none,
    studentAnswers := [], currentQuestionIndex := 0,
    quizTimerInterval := none, reviewingResult := none,
    currentStudentInfo := none }

/-- The scoring loop of submitQuiz (src/index.tsx lines 619-624):
walk the questions, compare the recorded answer at each position with the
correct answer by exact string equality, count matches.  A missing answer
position (undefined in the source) never matches. -/
def computeScore : List MCQ → List (Option String) → Nat
  | [], _ => 0
  | _ :: qs, [] => computeScore qs []
  | q :: qs, a :: as =>
      (if a = some q.correctAnswer then 1 else 0) + computeScore qs as

/-- navigateQuestion (src/index.tsx lines 600-610): move to
currentQuestionIndex + direction only when a quiz is active and the new
index lies in bounds; otherwise the state is untouched.  The rendering
calls in the body do not change engine state. -/
def navigateQuestion (direction : Int) (st : AppState) : AppState :=
  let newIndex : Int := (st.currentQuestionIndex : Int) + direction
  match st.activeQuiz with
  | some quiz =>
      if 0 ≤ newIndex ∧ newIndex < (quiz.questions.length : Int) then
        { st with currentQuestionIndex := newIndex.toNat }
      else st
  | none => st

/-- The change listener installed by renderQuestion
(src/index.tsx lines 586-590): store the selected radio input value — the
option text — at the current question position. -/
def selectAnswer (value : String) (st : AppState) : AppState :=
  { st with studentAnswers :=
      st.studentAnswers.set st.currentQuestionIndex (some value) }

/-- stopTimer (src/index.tsx lines 674-679): clear any running interval. -/
def stopTimer (st : AppState) : AppState :=
  { st with quizTimerInterval := none }

/-- submitQuiz (src/index.tsx lines 612-646): bail out when no quiz is
active; otherwise stop the timer, count the score, build the StudentResult
— with score forced to 0 when the cheated flag is set — append it to the
results list, and reset the attempt state (activeQuiz, studentAnswers,
currentQuestionIndex, stored student info).  The timedOut flag only
selects the message shown by renderStudentResult.  The student identity
read back from storage defaults to empty fields when the key is absent
(JSON.parse of an empty object literal at line 626). -/
def submitQuiz (cheated timedOut : Bool) (st : AppState) : AppState :=
  match st.activeQuiz with
  | none => st
  | some quiz =>
      let score := computeScore quiz.questions st.studentAnswers
      let info := st.currentStudentInfo.getD ⟨"", "", ""⟩
      let result : StudentResult :=
        { quizId := quiz.id
          studentName := info.name
          studentRoll := info.roll
          studentEmail := info.email
          score := if cheated then 0 else score
          total := quiz.questions.length
          answers := st.studentAnswers }
      { st with
          quizTimerInterval := none
          results := st.results ++ [result]
          activeQuiz := none
          studentAnswers := []
          currentQuestionIndex := 0
          currentStudentInfo := none }

/-- visibilityChangeHandler (src/index.tsx lines 682-686), in the case
where the document became hidden: submit with the cheated flag set. -/
def onVisibilityHidden (st : AppState) : AppState :=
  submitQuiz true false st

/-- The timer callback updateTimer of startTimer
(src/index.tsx lines 657-668), runnable only while an interval is armed:
when the remaining time is not positive, submit with the timedOut flag. -/
def updateTimer (now : Int) (st : AppState) : AppState :=
  match st.quizTimerInterval with
  | none => st
  | some endTime =>
      if endTime - now ≤ 0 then submitQuiz false true st else st

/-- startTimer (src/index.tsx lines 649-672): clear any previous interval,
set the end time to now plus the duration in milliseconds, and run the
callback once immediately. -/
def startTimer (now : Int) (durationInMinutes : Nat) (st : AppState) :
    AppState :=
  let st1 := { stopTimer st with
      quizTimerInterval := some (now + (durationInMinutes : Int) * 60 * 1000) }
  updateTimer now st1

/-- startQuiz (src/index.tsx lines 553-564): install the attempt state
(active quiz, all-null answers array of matching length, index 0), start
the timer, then render the first question.  renderQuestion reads
questions[currentQuestionIndex].options without a bounds check, so on a
quiz with no questions the call throws; that failure is the none case. -/
def startQuiz (now : Int) (quiz : Quiz) (st : AppState) : Option AppState :=
  let st1 := { st with
      activeQuiz := some quiz
      studentAnswers := List.replicate quiz.questions.length none
      currentQuestionIndex := 0 }
  let st2 := startTimer now quiz.duration st1
  if quiz.questions.length = 0 then none else some st2

/-- The three termination flavours distinguished by renderStudentResult
(src/index.tsx lines 710-715). -/
inductive TerminationReason where
  | Manual
  | Timeout
  | IntegrityViolation
deriving DecidableEq, Repr

/-- The branch order of renderStudentResult (src/index.tsx lines 711-714):
the cheated flag wins over the timedOut flag; with neither, the submission
was a plain manual one. -/
def terminationReason (cheated timedOut : Bool) : TerminationReason :=
  if cheated then .IntegrityViolation
  else if timedOut then .Timeout
  else .Manual

/-- The css class list built per option by renderReviewQuestion
(src/index.tsx lines 774-784): the correct class iff the option text
equals the correct answer, the selected class iff it equals the recorded
answer, and incorrect when selected but not correct. -/
def optionClasses (correctAnswer : String) (studentAnswer : Option String)
    (opt : String) : List String :=
  let c0 := ["option-item"]
  let c1 := if opt = correctAnswer then c0 ++ ["correct"] else c0
  if some opt = studentAnswer then
    c1 ++ ["selected"] ++ (if opt ≠ correctAnswer then ["incorrect"] else [])
  else c1

/-! ## Quiz id generation (src/index.tsx lines 520-530)

createAndSaveQuiz draws Math.random(), renders it in base 36, takes
substring(2, 8) and upper-cases it, retrying while the id is already a
key of the quizzes map.  Math.random() returns a double of the form
k / 2^53 with k < 2^53; toString(36) of such a value in (0, 1) prints
the digit 0, a point, then the base-36 digits of the fractional part
(ending at the terminating expansion, which for k / 2^53 exists), and
prints just the digit 0 for the value 0.  substring(2, 8) therefore
keeps the first at-most-6 fraction digits.  The random draws are
modelled as the list of mantissas k handed to the generator. -/

/-- The base-36 digit characters 0-9 then a-z used by Number.toString. -/
def base36Digit (n : Nat) : Char :=
  if n < 10 then Char.ofNat (48 + n) else Char.ofNat (87 + n)

/-- The base-36 fraction digits of k / 2^53, most significant first,
stopping at the terminating expansion (fuel-bounded; 54 steps more than
cover the at most 27 digits of a dyadic of denominator 2^53). -/
def base36FracDigits : Nat → Nat → List Char
  | 0, _ => []
  | fuel + 1, k =>
      if k = 0 then []
      else
        base36Digit (k * 36 / 2 ^ 53) ::
          base36FracDigits fuel (k * 36 % 2 ^ 53)

/-- One candidate id: Math.random().toString(36).substring(2,8)
.toUpperCase() at a draw with mantissa k (src/index.tsx line 523), as its
character list. -/
def randomQuizId (k : Nat) : List Char :=
  ((base36FracDigits 54 k).take 6).map Char.toUpper

/-- The do-while loop of createAndSaveQuiz (src/index.tsx lines 522-524):
draw a candidate, retry while it is already a key of the quizzes map.
The draws are supplied as a list; none means the supply ran out with the
loop still running. -/
def genQuizId (quizzes : List (String × Quiz)) : List Nat → Option String
  | [] => none
  | k :: ks =>
      let id := String.mk (randomQuizId k)
      if (quizzes.find? (fun p => p.1 = id)).isSome then genQuizId quizzes ks
      else some id

/-- createAndSaveQuiz (src/index.tsx lines 520-530): generate a fresh id
and store the new quiz under it.  Persistence and re-rendering carry no
engine state. -/
def createAndSaveQuiz (randoms : List Nat) (title : String)
    (questions : List MCQ) (duration : Nat) (st : AppState) :
    Option AppState :=
  match genQuizId st.quizzes randoms with
  | none => none
  | some newQuizId =>
      some { st with quizzes := st.quizzes ++
          [(newQuizId, { id := newQuizId, title := title,
                         questions := questions, duration := duration })] }

/-- An uppercase alphanumeric character: a decimal digit or an uppercase
letter. -/
def IsUpperAlnum (c : Char) : Prop :=
  ('0' ≤ c ∧ c ≤ '9') ∨ ('A' ≤ c ∧ c ≤ 'Z')

instance (c : Char) : Decidable (IsUpperAlnum c) := by
  unfold IsUpperAlnum; infer_instance

/-! ## Persistence layout (src/index.tsx lines 64-85)

saveDataToStorage writes JSON.stringify of the professors object, the
quizzes object and the results array under three localStorage keys;
loadDataFromStorage reads them back with JSON.parse.  The serialized
strings are modelled by their JSON trees; objects keep their key order.
JSON.stringify omits a property whose value is undefined, so the optional
explanation field is present in the tree exactly when it is set. -/

inductive Json where
  | str : String → Json
  | num : Int → Json
  | jnull : Json
  | arr : List Json → Json
  | obj : List (String × Json) → Json

/-- Property access on a parsed JSON object. -/
def jLookup (fields : List (String × Json)) (k : String) : Option Json :=
  (fields.find? (fun p => p.1 = k)).map (fun p => p.2)

def asStr : Json → Option String
  | .str s => some s
  | _ => none

def asNat : Json → Option Nat
  | .num n => some n.toNat
  | _ => none

/-- Decode every element of a parsed JSON array, failing when any
element fails. -/
def mapOpt {α β : Type} (f : α → Option β) : List α → Option (List β)
  | [] => some []
  | x :: xs =>
      match f x with
      | none => none
      | some y => (mapOpt f xs).map (fun ys => y :: ys)

def asStrList : Json → Option (List String)
  | .arr xs => mapOpt asStr xs
  | _ => none

/-- A recorded answer serializes as its string, an unanswered slot as
null. -/
def encodeAnswer : Option String → Json
  | some s => .str s
  | none => .jnull

def decodeAnswer : Json → Option (Option String)
  | .str s => some (some s)
  | .jnull => some none
  | _ => none

def encodeMCQ (m : MCQ) : Json :=
  .obj ([("question", .str m.question),
         ("options", .arr (m.options.map .str)),
         ("correctAnswer", .str m.correctAnswer)] ++
        (match m.expl with
         | some e => [("explanation", .str e)]
         | none => []))

def decodeMCQ (j : Json) : Option MCQ :=
  match j with
  | .obj fields => do
      let q ← jLookup fields "question" >>= asStr
      let opts ← jLookup fields "options" >>= asStrList
      let ca ← jLookup fields "correctAnswer" >>= asStr
      pure { question := q, options := opts, correctAnswer := ca,
             expl := jLookup fields "explanation" >>= asStr }
  | _ => none

def encodeQuiz (q : Quiz) : Json :=
  .obj [("id", .str q.id), ("title", .str q.title),
        ("questions", .arr (q.questions.map encodeMCQ)),
        ("duration", .num q.duration)]

def decodeQuiz (j : Json) : Option Quiz :=
  match j with
  | .obj fields => do
      let i ← jLookup fields "id" >>= asStr
      let t ← jLookup fields "title" >>= asStr
      let qsJson ← jLookup fields "questions"
      let qs ← match qsJson with
               | .arr xs => mapOpt decodeMCQ xs
               | _ => none
      let d ← jLookup fields "duration" >>= asNat
      pure { id := i, title := t, questions := qs, duration := d }
  | _ => none

def encodeResult (r : StudentResult) : Json :=
  .obj [("quizId", .str r.quizId), ("studentName", .str r.studentName),
        ("studentRoll", .str r.studentRoll),
        ("studentEmail", .str r.studentEmail),
        ("score", .num r.score), ("total", .num r.total),
        ("answers", .arr (r.answers.map encodeAnswer))]

def decodeResult (j : Json) : Option StudentResult :=
  match j with
  | .obj fields => do
      let qi ← jLookup fields "quizId" >>= asStr
      let n ← jLookup fields "studentName" >>= asStr
      let ro ← jLookup fields "studentRoll" >>= asStr
      let e ← jLookup fields "studentEmail" >>= asStr
      let s ← jLookup fields "score" >>= asNat
      let t ← jLookup fields "total" >>= asNat
      let aJson ← jLookup fields "answers"
      let a ← match aJson with
              | .arr xs => mapOpt decodeAnswer xs
              | _ => none
      pure { quizId := qi, studentName := n, studentRoll := ro,
             studentEmail := e, score := s, total := t, answers := a }
  | _ => none

def encodeProfessors (ps : List (String × String)) : Json :=
  .obj (ps.map (fun p => (p.1, .str p.2)))

def decodeProfessors (j : Json) : Option (List (String × String)) :=
  match j with
  | .obj fields =>
      mapOpt (fun p => (asStr p.2).map (fun v => (p.1, v))) fields
  | _ => none

def encodeQuizzes (qs : List (String × Quiz)) : Json :=
  .obj (qs.map (fun p => (p.1, encodeQuiz p.2)))

def decodeQuizzes (j : Json) : Option (List (String × Quiz)) :=
  match j with
  | .obj fields =>
      mapOpt (fun p => (decodeQuiz p.2).map (fun v => (p.1, v))) fields
  | _ => none

def encodeResults (rs : List StudentResult) : Json :=
  .arr (rs.map encodeResult)

def decodeResults (j : Json) : Option (List StudentResult) :=
  match j with
  | .arr xs => mapOpt decodeResult xs
  | _ => none

/-- The three localStorage slots; none models a missing key. -/
structure Storage where
  quizAppProfessors : Option Json
  quizAppQuizzes : Option Json
  quizAppResults : Option Json

/-- saveDataToStorage (src/index.tsx lines 81-85). -/
def saveDataToStorage (st : AppState) : Storage :=
  { quizAppProfessors := some (encodeProfessors st.professors)
    quizAppQuizzes := some (encodeQuizzes st.quizzes)
    quizAppResults := some (encodeResults st.results) }

/-- loadDataFromStorage (src/index.tsx lines 64-79): take the stored
professors map only when it is present and has at least one key,
otherwise seed the default test professor; take the stored quizzes map
and results list when present. -/
def loadDataFromStorage (store : Storage) (st : AppState) : AppState :=
  let st1 :=
    match store.quizAppProfessors.bind decodeProfessors with
    | some ps =>
        if ps.length > 0 then { st with professors := ps }
        else { st with professors := [("professor@test.com", "password")] }
    | none => { st with professors := [("professor@test.com", "password")] }
  let st2 :=
    match store.quizAppQuizzes.bind decodeQuizzes with
    | some qs => { st1 with quizzes := qs }
    | none => st1
  match store.quizAppResults.bind decodeResults with
  | some rs => { st2 with results := rs }
  | none => st2

/-! ## Concrete inputs used by the witness theorems -/

/-- A two-question quiz matching Scenario A of the spec: the correct
answers are Paris and 42. -/
def scenarioAQuiz : Quiz :=
  { id := "SCEN0A", title := "Scenario A",
    questions :=
      [⟨"Capital of France?", ["Paris", "London", "Berlin", "Rome"],
        "Paris", none⟩,
       ⟨"The answer to everything?", ["41", "42", "43", "44"], "42", none⟩],
    duration := 10 }

/-- An attempt in flight on the Scenario A quiz with every answer correct,
a one-minute deadline armed, and a stored taker identity. -/
def activeState : AppState :=
  { initialState with
      activeQuiz := some scenarioAQuiz,
      studentAnswers := [some "Paris", some "42"],
      quizTimerInterval := some 60000,
      currentStudentInfo := some ⟨"Ada", "17", "ada@test.com"⟩ }

/-- A populated simulated database: one professor, one quiz, one result. -/
def storedState : AppState :=
  { initialState with
      professors := [("professor@test.com", "pw1")],
      quizzes := [("AB12CD", scenarioAQuiz)],
      results := [⟨"AB12CD", "Ada", "17", "ada@test.com", 1, 2,
                   [some "Paris", some "41"]⟩] }

/-- An MCQ whose options hold two elements with identical text equal to
the correct answer. -/
def dupOptionMCQ : MCQ :=
  ⟨"Pick the capital", ["Paris", "Paris", "Rome"], "Paris", none⟩

/-! ## Helper lemmas -/

theorem computeScore_nil_answers (qs : List MCQ) : computeScore qs [] = 0 := by
  induction qs with
  | nil => rfl
  | cons q qs ih => simpa [computeScore] using ih

theorem computeScore_le_length (qs : List MCQ) (ans : List (Option String)) :
    computeScore qs ans ≤ qs.length := by
  induction qs generalizing ans with
  | nil => simp [computeScore]
  | cons q qs ih =>
      cases ans with
      | nil => simp [computeScore_nil_answers]
      | cons a as =>
          simp only [computeScore, List.length_cons]
          have := ih as
          split <;> omega

theorem computeScore_eq_countP (qs : List MCQ) (ans : List (Option String))
    (h : ans.length = qs.length) :
    computeScore qs ans =
      (qs.zip ans).countP (fun p => decide (p.2 = some p.1.correctAnswer)) := by
  induction qs generalizing ans with
  | nil => simp [computeScore]
  | cons q qs ih =>
      cases ans with
      | nil => simp at h
      | cons a as =>
          simp only [List.length_cons, Nat.succ_inj] at h
          simp only [computeScore, List.zip_cons_cons, List.countP_cons, ih as h]
          by_cases hm : a = some q.correctAnswer <;> simp [hm] <;> omega

/-! ## Claim theorems -/

/-- Claim C1: for every quiz and every answers sequence of matching
length, the score computed at submission equals the number of positions
whose recorded answer is exactly string-equal to that question's correct
answer, and the score lies between 0 and the question count. -/
theorem score_counts_exact_matches (q : Quiz) (ans : List (Option String))
    (h : ans.length = q.questions.length) :
    computeScore q.questions ans =
      (q.questions.zip ans).countP
        (fun p => decide (p.2 = some p.1.correctAnswer)) ∧
    computeScore q.questions ans ≤ q.questions.length :=
  ⟨computeScore_eq_countP q.questions ans h,
   computeScore_le_length q.questions ans⟩

/-- Witness for C1 at Scenario A: recorded answers Paris and 41 against
correct answers Paris and 42 give score 1 of total 2. -/
theorem score_counts_exact_matches_witness :
    ([some "Paris", some "41"] : List (Option String)).length =
        scenarioAQuiz.questions.length ∧
    (computeScore scenarioAQuiz.questions [some "Paris", some "41"] =
        (scenarioAQuiz.questions.zip [some "Paris", some "41"]).countP
          (fun p => decide (p.2 = some p.1.correctAnswer)) ∧
      computeScore scenarioAQuiz.questions [some "Paris", some "41"] ≤
        scenarioAQuiz.questions.length) ∧
    computeScore scenarioAQuiz.questions [some "Paris", some "41"] = 1 ∧
    scenarioAQuiz.questions.length = 2 :=
  ⟨by decide,
   score_counts_exact_matches scenarioAQuiz [some "Paris", some "41"]
     (by decide),
   by decide, by decide⟩

/-- Claim C2: a submission on the cheated path (the one taken by the
visibility-change handler) appends a Result whose score is 0, whatever
the recorded answers were; the rendered termination flavour is the
integrity violation. -/
theorem integrity_violation_zero_score (st : AppState) (q : Quiz)
    (hq : st.activeQuiz = some q) (timedOut : Bool) :
    ∃ r : StudentResult,
      (submitQuiz true timedOut st).results = st.results ++ [r] ∧
      r.score = 0 ∧
      terminationReason true timedOut =
        TerminationReason.IntegrityViolation := by
  refine ⟨⟨q.id, (st.currentStudentInfo.getD ⟨"", "", ""⟩).name,
    (st.currentStudentInfo.getD ⟨"", "", ""⟩).roll,
    (st.currentStudentInfo.getD ⟨"", "", ""⟩).email,
    0, q.questions.length, st.studentAnswers⟩, ?_, rfl, rfl⟩
  simp [submitQuiz, hq]

/-- Witness for C2: a session with every recorded answer correct (full
marks would be 2) still finalizes with score 0 on the cheated path. -/
theorem integrity_violation_zero_score_witness :
    activeState.activeQuiz = some scenarioAQuiz ∧
    computeScore scenarioAQuiz.questions activeState.studentAnswers = 2 ∧
    ∃ r : StudentResult,
      (submitQuiz true false activeState).results =
        activeState.results ++ [r] ∧
      r.score = 0 ∧
      terminationReason true false = TerminationReason.IntegrityViolation :=
  ⟨rfl, by decide,
   integrity_violation_zero_score activeState scenarioAQuiz rfl false⟩

/-- Claim C3: with an active quiz, navigate moves the index by the
requested delta exactly when the new index stays within bounds; an
out-of-range request leaves the whole state unchanged, the index never
leaves the valid range, and from the last index any number of forward
navigations changes nothing. -/
theorem navigateQuestion_in_bounds_only (st : AppState) (q : Quiz)
    (hq : st.activeQuiz = some q) (d : Int) (hd : d = -1 ∨ d = 1) :
    ((0 ≤ (st.currentQuestionIndex : Int) + d ∧
        (st.currentQuestionIndex : Int) + d < (q.questions.length : Int)) →
      navigateQuestion d st =
        { st with currentQuestionIndex :=
            ((st.currentQuestionIndex : Int) + d).toNat }) ∧
    (¬ (0 ≤ (st.currentQuestionIndex : Int) + d ∧
        (st.currentQuestionIndex : Int) + d < (q.questions.length : Int)) →
      navigateQuestion d st = st) ∧
    (st.currentQuestionIndex < q.questions.length →
      (navigateQuestion d st).currentQuestionIndex < q.questions.length) ∧
    (st.currentQuestionIndex = q.questions.length - 1 →
      ∀ n : Nat, (navigateQuestion 1)^[n] st = st) := by
  refine ⟨?_, ?_, ?_, ?_⟩
  · intro hin
    simp [navigateQuestion, hq, hin]
  · intro hout
    simp only [navigateQuestion, hq]
    rw [if_neg hout]
  · intro hlt
    by_cases hin : 0 ≤ (st.currentQuestionIndex : Int) + d ∧
        (st.currentQuestionIndex : Int) + d < (q.questions.length : Int)
    · simp only [navigateQuestion, hq, if_pos hin]
      omega
    · simp only [navigateQuestion, hq]
      rw [if_neg hin]
      exact hlt
  · intro hlast n
    have hfix : navigateQuestion 1 st = st := by
      simp only [navigateQuestion, hq]
      rw [if_neg]
      omega
    exact Function.iterate_fixed hfix n

/-- Witness for C3 at Scenario D: navigate(-1) while the index is 0
leaves the state unchanged. -/
theorem navigateQuestion_in_bounds_only_witness :
    activeState.activeQuiz = some scenarioAQuiz ∧
    ((-1 : Int) = -1 ∨ (-1 : Int) = 1) ∧
    (¬ (0 ≤ (activeState.currentQuestionIndex : Int) + (-1) ∧
        (activeState.currentQuestionIndex : Int) + (-1) <
          (scenarioAQuiz.questions.length : Int)) →
      navigateQuestion (-1) activeState = activeState) ∧
    navigateQuestion (-1) activeState = activeState :=
  ⟨rfl, Or.inl rfl,
   (navigateQuestion_in_bounds_only activeState scenarioAQuiz rfl (-1)
       (Or.inl rfl)).2.1,
   (navigateQuestion_in_bounds_only activeState scenarioAQuiz rfl (-1)
       (Or.inl rfl)).2.1 (by decide)⟩

/-- Claim C4: submitting is idempotent — a second submission after the
first (with any flags) changes nothing: the state, and in particular the
results list holding the finalized Result, are identical. -/
theorem submitQuiz_idempotent (c t c2 t2 : Bool) (st : AppState) :
    submitQuiz c2 t2 (submitQuiz c t st) = submitQuiz c t st ∧
    (submitQuiz c2 t2 (submitQuiz c t st)).results =
      (submitQuiz c t st).results := by
  have h : submitQuiz c2 t2 (submitQuiz c t st) = submitQuiz c t st := by
    cases hq : st.activeQuiz <;> simp [submitQuiz, hq]
  exact ⟨h, by rw [h]⟩

/-- Claim C5: the cheated-path Result keeps the originally selected
answers untouched for audit, and differs from the manual-path Result in
the score field alone. -/
theorem integrity_violation_retains_answers (st : AppState) (q : Quiz)
    (hq : st.activeQuiz = some q) :
    ∃ r rm : StudentResult,
      (onVisibilityHidden st).results = st.results ++ [r] ∧
      (submitQuiz false false st).results = st.results ++ [rm] ∧
      r.answers = st.studentAnswers ∧
      r.score = 0 ∧
      r = { rm with score := 0 } := by
  refine ⟨⟨q.id, (st.currentStudentInfo.getD ⟨"", "", ""⟩).name,
    (st.currentStudentInfo.getD ⟨"", "", ""⟩).roll,
    (st.currentStudentInfo.getD ⟨"", "", ""⟩).email,
    0, q.questions.length, st.studentAnswers⟩,
    ⟨q.id, (st.currentStudentInfo.getD ⟨"", "", ""⟩).name,
    (st.currentStudentInfo.getD ⟨"", "", ""⟩).roll,
    (st.currentStudentInfo.getD ⟨"", "", ""⟩).email,
    computeScore q.questions st.studentAnswers, q.questions.length,
    st.studentAnswers⟩, ?_, ?_, rfl, rfl, rfl⟩
  · simp [onVisibilityHidden, submitQuiz, hq]
  · simp [submitQuiz, hq]

/-- Witness for C5 at Scenario C: the taker selected options, the
foreground-loss handler fires, and the finalized Result keeps the
selected answers while the score is zeroed. -/
theorem integrity_violation_retains_answers_witness :
    activeState.activeQuiz = some scenarioAQuiz ∧
    ∃ r rm : StudentResult,
      (onVisibilityHidden activeState).results =
        activeState.results ++ [r] ∧
      (submitQuiz false false activeState).results =
        activeState.results ++ [rm] ∧
      r.answers = activeState.studentAnswers ∧
      r.score = 0 ∧
      r = { rm with score := 0 } :=
  ⟨rfl,
   integrity_violation_retains_answers activeState scenarioAQuiz rfl⟩

/-- Claim C6: a timer callback that finds the remaining time not positive
performs the timed-out submission: the finalized Result is appended, the
rendered termination flavour is the timeout, and every later callback —
the timer interval having been cleared — changes nothing more. -/
theorem tick_timeout_submits_once (st : AppState) (q : Quiz)
    (endTime now : Int) (hq : st.activeQuiz = some q)
    (he : st.quizTimerInterval = some endTime) (h : endTime - now ≤ 0) :
    updateTimer now st = submitQuiz false true st ∧
    (∃ r : StudentResult,
      (updateTimer now st).results = st.results ++ [r] ∧
      r.total = q.questions.length) ∧
    terminationReason false true = TerminationReason.Timeout ∧
    ∀ now2 : Int, updateTimer now2 (updateTimer now st) =
      updateTimer now st := by
  have h1 : updateTimer now st = submitQuiz false true st := by
    simp [updateTimer, he, h]
  refine ⟨h1, ?_, rfl, ?_⟩
  · refine ⟨⟨q.id, (st.currentStudentInfo.getD ⟨"", "", ""⟩).name,
      (st.currentStudentInfo.getD ⟨"", "", ""⟩).roll,
      (st.currentStudentInfo.getD ⟨"", "", ""⟩).email,
      computeScore q.questions st.studentAnswers, q.questions.length,
      st.studentAnswers⟩, ?_, rfl⟩
    rw [h1]
    simp [submitQuiz, hq]
  · intro now2
    rw [h1]
    have h2 : (submitQuiz false true st).quizTimerInterval = none := by
      simp [submitQuiz, hq]
    simp [updateTimer, h2]

/-- Witness for C6 at Scenario B: a one-minute deadline (end time 60000)
whose first callback only arrives at 60001 submits with the timeout
flavour. -/
theorem tick_timeout_submits_once_witness :
    activeState.activeQuiz = some scenarioAQuiz ∧
    activeState.quizTimerInterval = some 60000 ∧
    ((60000 : Int) - 60001 ≤ 0) ∧
    (updateTimer 60001 activeState = submitQuiz false true activeState ∧
     (∃ r : StudentResult,
       (updateTimer 60001 activeState).results =
         activeState.results ++ [r] ∧
       r.total = scenarioAQuiz.questions.length) ∧
     terminationReason false true = TerminationReason.Timeout ∧
     ∀ now2 : Int, updateTimer now2 (updateTimer 60001 activeState) =
       updateTimer 60001 activeState) :=
  ⟨rfl, rfl, by decide,
   tick_timeout_submits_once activeState scenarioAQuiz 60000 60001 rfl rfl
     (by decide)⟩

/-- Claim C9: starting a quiz with positive duration sets index 0, an
all-unanswered answers sequence of matching length and the deadline at
now plus the duration in minutes, and fails exactly when the question
list is empty. -/
theorem startQuiz_spec (now : Int) (quiz : Quiz) (st : AppState)
    (hd : 0 < quiz.duration) :
    ((startQuiz now quiz st).isSome ↔ quiz.questions ≠ []) ∧
    (∀ st2 : AppState, startQuiz now quiz st = some st2 →
      st2.activeQuiz = some quiz ∧
      st2.currentQuestionIndex = 0 ∧
      st2.studentAnswers.length = quiz.questions.length ∧
      (∀ a ∈ st2.studentAnswers, a = none) ∧
      st2.quizTimerInterval =
        some (now + (quiz.duration : Int) * 60 * 1000)) := by
  have harith : ¬ (now + (quiz.duration : Int) * 60 * 1000 - now ≤ 0) := by
    have h1 : (1 : Int) ≤ (quiz.duration : Int) := by exact_mod_cast hd
    nlinarith
  constructor
  · by_cases hlen : quiz.questions.length = 0
    · simp [startQuiz, hlen, List.length_eq_zero.mp hlen]
    · simp only [startQuiz, if_neg hlen, Option.isSome_some, true_iff]
      intro hnil
      exact hlen (by simp [hnil])
  · intro st2 hst2
    by_cases hlen : quiz.questions.length = 0
    · simp [startQuiz, hlen] at hst2
    · simp only [startQuiz, if_neg hlen, Option.some.injEq] at hst2
      subst hst2
      simp only [startTimer, stopTimer, updateTimer]
      rw [if_neg harith]
      refine ⟨rfl, rfl, by simp, ?_, rfl⟩
      intro a ha
      exact List.eq_of_mem_replicate ha

/-- Witness for C9: starting the two-question Scenario A quiz at time 0
succeeds with a 600000 ms deadline. -/
theorem startQuiz_spec_witness :
    0 < scenarioAQuiz.duration ∧
    ((startQuiz 0 scenarioAQuiz initialState).isSome ↔
        scenarioAQuiz.questions ≠ []) ∧
    (∀ st2 : AppState, startQuiz 0 scenarioAQuiz initialState = some st2 →
      st2.activeQuiz = some scenarioAQuiz ∧
      st2.currentQuestionIndex = 0 ∧
      st2.studentAnswers.length = scenarioAQuiz.questions.length ∧
      (∀ a ∈ st2.studentAnswers, a = none) ∧
      st2.quizTimerInterval =
        some (0 + (scenarioAQuiz.duration : Int) * 60 * 1000)) :=
  ⟨by decide, startQuiz_spec 0 scenarioAQuiz initialState (by decide)⟩

/-- Claim C10: options are identified purely by their text — selecting an
option stores its string value, scoring compares that string with the
correct answer, and the review classifies an option as correct exactly
when its text equals the correct answer; with two option positions
carrying the same text equal to the correct answer, selecting either one
scores as correct and both classify as correct. -/
theorem options_identified_by_text (q : MCQ) (i j : Nat) (hij : i ≠ j)
    (hi : q.options.get? i = some q.correctAnswer)
    (hj : q.options.get? j = some q.correctAnswer) :
    (∀ st : AppState, st.currentQuestionIndex < st.studentAnswers.length →
      (selectAnswer (q.options.getD i "") st).studentAnswers.get?
          st.currentQuestionIndex = some (some q.correctAnswer) ∧
      (selectAnswer (q.options.getD j "") st).studentAnswers.get?
          st.currentQuestionIndex = some (some q.correctAnswer)) ∧
    computeScore [q] [some q.correctAnswer] = 1 ∧
    (∀ (a : Option String) (opt : String),
      "correct" ∈ optionClasses q.correctAnswer a opt ↔
        opt = q.correctAnswer) ∧
    "correct" ∈ optionClasses q.correctAnswer (some q.correctAnswer)
      (q.options.getD i "") ∧
    "correct" ∈ optionClasses q.correctAnswer (some q.correctAnswer)
      (q.options.getD j "") := by
  have hgi : q.options.getD i "" = q.correctAnswer := by
    have h1 := hi
    rw [List.get?_eq_getElem?] at h1
    simp [List.getD, h1]
  have hgj : q.options.getD j "" = q.correctAnswer := by
    have h1 := hj
    rw [List.get?_eq_getElem?] at h1
    simp [List.getD, h1]
  have hcls : ∀ (a : Option String) (opt : String),
      "correct" ∈ optionClasses q.correctAnswer a opt ↔
        opt = q.correctAnswer := by
    intro a opt
    simp only [optionClasses]
    split_ifs with h1 h2 h3 <;> simp_all
  refine ⟨?_, by simp [computeScore], hcls, ?_, ?_⟩
  · intro st hlt
    rw [hgi, hgj]
    constructor <;>
      · simp only [selectAnswer, List.get?_eq_getElem?]
        exact List.getElem?_set_eq_of_lt _ hlt
  · rw [hgi]
    exact (hcls (some q.correctAnswer) q.correctAnswer).mpr rfl
  · rw [hgj]
    exact (hcls (some q.correctAnswer) q.correctAnswer).mpr rfl

/-- Witness for C10 at a concrete MCQ whose first two options both read
Paris, the correct answer. -/
theorem options_identified_by_text_witness :
    (0 : Nat) ≠ 1 ∧
    dupOptionMCQ.options.get? 0 = some dupOptionMCQ.correctAnswer ∧
    dupOptionMCQ.options.get? 1 = some dupOptionMCQ.correctAnswer ∧
    (computeScore [dupOptionMCQ] [some dupOptionMCQ.correctAnswer] = 1 ∧
     "correct" ∈ optionClasses dupOptionMCQ.correctAnswer
       (some dupOptionMCQ.correctAnswer) (dupOptionMCQ.options.getD 0 "") ∧
     "correct" ∈ optionClasses dupOptionMCQ.correctAnswer
       (some dupOptionMCQ.correctAnswer) (dupOptionMCQ.options.getD 1 "")) :=
  ⟨by decide, by decide, by decide,
   (options_identified_by_text dupOptionMCQ 0 1 (by decide) (by decide)
       (by decide)).2.1,
   (options_identified_by_text dupOptionMCQ 0 1 (by decide) (by decide)
       (by decide)).2.2.2.1,
   (options_identified_by_text dupOptionMCQ 0 1 (by decide) (by decide)
       (by decide)).2.2.2.2⟩

/-- Helper: every character emitted by the fraction-digit expansion is a
base-36 digit character. -/
theorem base36FracDigits_mem (fuel : Nat) :
    ∀ k : Nat, k < 2 ^ 53 → ∀ c ∈ base36FracDigits fuel k,
      ∃ d : Nat, d < 36 ∧ c = base36Digit d := by
  induction fuel with
  | zero => intro k _ c hc; simp [base36FracDigits] at hc
  | succ fuel ih =>
      intro k hk c hc
      by_cases hk0 : k = 0
      · simp [base36FracDigits, hk0] at hc
      · simp only [base36FracDigits, if_neg hk0, List.mem_cons] at hc
        rcases hc with hc | hc
        · refine ⟨k * 36 / 2 ^ 53, ?_, hc⟩
          have : k * 36 < 36 * 2 ^ 53 := by omega
          omega
        · exact ih (k * 36 % 2 ^ 53) (Nat.mod_lt _ (by positivity)) c hc

/-- Helper: upper-casing any base-36 digit character yields an uppercase
alphanumeric character. -/
theorem upperAlnum_base36Digit (d : Nat) (hd : d < 36) :
    IsUpperAlnum (Char.toUpper (base36Digit d)) := by
  have h : ∀ f : Fin 36, IsUpperAlnum (Char.toUpper (base36Digit f.val)) := by
    decide
  exact h ⟨d, hd⟩

/-- Helper: every candidate id drawn from a mantissa below 2^53 has at
most 6 characters, all uppercase alphanumeric. -/
theorem randomQuizId_shape (k : Nat) (hk : k < 2 ^ 53) :
    (randomQuizId k).length ≤ 6 ∧ ∀ c ∈ randomQuizId k, IsUpperAlnum c := by
  constructor
  · simp only [randomQuizId, List.length_map, List.length_take]
    omega
  · intro c hc
    simp only [randomQuizId, List.mem_map] at hc
    obtain ⟨c0, hc0, rfl⟩ := hc
    have hc1 : c0 ∈ base36FracDigits 54 k := List.mem_of_mem_take hc0
    obtain ⟨d, hd, rfl⟩ := base36FracDigits_mem 54 k hk c0 hc1
    exact upperAlnum_base36Digit d hd

/-- Helper: a successfully drawn id is fresh for the quizzes map and has
the candidate shape. -/
theorem genQuizId_fresh (quizzes : List (String × Quiz)) :
    ∀ ks : List Nat, (∀ k ∈ ks, k < 2 ^ 53) →
      ∀ id : String, genQuizId quizzes ks = some id →
        (∀ p ∈ quizzes, p.1 ≠ id) ∧ id.length ≤ 6 ∧
        ∀ c ∈ id.data, IsUpperAlnum c := by
  intro ks
  induction ks with
  | nil => intro _ id h; simp [genQuizId] at h
  | cons k ks ih =>
      intro hks id h
      simp only [genQuizId] at h
      split at h
      · exact ih (fun k2 hk2 => hks k2 (List.mem_cons_of_mem _ hk2)) id h
      · rename_i hfind
        have h2 := Option.some.inj h
        subst h2
        have hk : k < 2 ^ 53 := hks k (List.mem_cons_self _ _)
        have hs := randomQuizId_shape k hk
        refine ⟨?_, hs.1, hs.2⟩
        intro p hp hpid
        apply hfind
        rw [List.find?_isSome]
        exact ⟨p, hp, by simp [hpid]⟩

/-- Claim C7 counterexample: at the draw Math.random() = 0.5 — mantissa
2^52 of 2^53 — the base-36 rendering is the digit 0, a point and the
single digit i, so substring(2, 8).toUpperCase() stores the one-character
id I: a generated id need not have 6 characters. -/
theorem quizId_sixchar_counterexample :
    (createAndSaveQuiz [2 ^ 52] "T" [] 10 initialState).map
        (fun st2 => st2.quizzes.map (fun p => p.1)) = some ["I"] ∧
    ("I" : String).length ≠ 6 := by
  constructor
  · decide
  · decide

/-- Claim C7 (amended): every quiz id generated at creation time is an
uppercase alphanumeric code of at most 6 characters — exactly 6 unless
the draw's base-36 expansion terminates in fewer digits — and is unique
within the repository: generation retries on collision, so after
createAndSaveQuiz the new id differs from every previously stored quiz
id. -/
theorem createAndSaveQuiz_id_amended (randoms : List Nat)
    (h : ∀ k ∈ randoms, k < 2 ^ 53) (title : String)
    (questions : List MCQ) (duration : Nat) (st st2 : AppState)
    (hsome : createAndSaveQuiz randoms title questions duration st =
      some st2) :
    ∃ id : String,
      st2.quizzes = st.quizzes ++
        [(id, { id := id, title := title, questions := questions,
                duration := duration })] ∧
      (∀ p ∈ st.quizzes, p.1 ≠ id) ∧
      id.length ≤ 6 ∧ ∀ c ∈ id.data, IsUpperAlnum c := by
  unfold createAndSaveQuiz at hsome
  cases hgen : genQuizId st.quizzes randoms with
  | none => rw [hgen] at hsome; exact absurd hsome (by simp)
  | some id =>
      rw [hgen] at hsome
      have h3 := genQuizId_fresh st.quizzes randoms h id hgen
      have h4 := Option.some.inj hsome
      subst h4
      exact ⟨id, rfl, h3.1, h3.2.1, h3.2.2⟩

/-- Witness for the amended C7: with the repository already holding the
quiz code AB12CD, the draw 0.5 stores the fresh uppercase id I of length
1 ≤ 6. -/
theorem createAndSaveQuiz_id_amended_witness :
    (∀ k ∈ [2 ^ 52], k < 2 ^ 53) ∧
    ∃ id : String,
      ({ storedState with quizzes := storedState.quizzes ++
          [("I", { id := "I", title := "T2", questions := [],
                   duration := 5 })] } : AppState).quizzes =
        storedState.quizzes ++
          [(id, { id := id, title := "T2", questions := [],
                  duration := 5 })] ∧
      (∀ p ∈ storedState.quizzes, p.1 ≠ id) ∧
      id.length ≤ 6 ∧ ∀ c ∈ id.data, IsUpperAlnum c :=
  ⟨by decide,
   createAndSaveQuiz_id_amended [2 ^ 52] (by decide) "T2" [] 5 storedState
     _ (by decide)⟩

/-- Helper: decoding a mapped list succeeds elementwise. -/
theorem mapOpt_map_eq_some {α β : Type} (f : α → Option β) (g : β → α)
    (xs : List β) (h : ∀ b ∈ xs, f (g b) = some b) :
    mapOpt f (xs.map g) = some xs := by
  induction xs with
  | nil => rfl
  | cons x xs ih =>
      simp only [List.map_cons, mapOpt, h x (List.mem_cons_self _ _),
        ih (fun b hb => h b (List.mem_cons_of_mem _ hb)),
        Option.map_some']

/-- Helper: a recorded answer decodes back from its encoding. -/
theorem decodeAnswer_encodeAnswer (a : Option String) :
    decodeAnswer (encodeAnswer a) = some a := by
  cases a <;> rfl

/-- Helper: an MCQ decodes back from its encoding. -/
theorem decodeMCQ_encodeMCQ (m : MCQ) : decodeMCQ (encodeMCQ m) = some m := by
  cases m with
  | mk q opts ca ex =>
      cases ex <;>
        simp [encodeMCQ, decodeMCQ, jLookup, asStr, asStrList,
              mapOpt_map_eq_some asStr Json.str opts (fun b _ => rfl)]

/-- Helper: a Quiz decodes back from its encoding. -/
theorem decodeQuiz_encodeQuiz (q : Quiz) :
    decodeQuiz (encodeQuiz q) = some q := by
  cases q with
  | mk i t qs d =>
      simp [encodeQuiz, decodeQuiz, jLookup, asStr, asNat,
            mapOpt_map_eq_some decodeMCQ encodeMCQ qs
              (fun b _ => decodeMCQ_encodeMCQ b)]

/-- Helper: a StudentResult decodes back from its encoding. -/
theorem decodeResult_encodeResult (r : StudentResult) :
    decodeResult (encodeResult r) = some r := by
  cases r with
  | mk qi n ro e s t a =>
      simp [encodeResult, decodeResult, jLookup, asStr, asNat,
            mapOpt_map_eq_some decodeAnswer encodeAnswer a
              (fun b _ => decodeAnswer_encodeAnswer b)]

/-- Helper: the professors map decodes back from its encoding. -/
theorem decodeProfessors_encodeProfessors (ps : List (String × String)) :
    decodeProfessors (encodeProfessors ps) = some ps := by
  simp only [encodeProfessors, decodeProfessors]
  exact mapOpt_map_eq_some _ _ ps (fun b _ => rfl)

/-- Helper: the quizzes map decodes back from its encoding. -/
theorem decodeQuizzes_encodeQuizzes (qs : List (String × Quiz)) :
    decodeQuizzes (encodeQuizzes qs) = some qs := by
  simp only [encodeQuizzes, decodeQuizzes]
  exact mapOpt_map_eq_some _ _ qs
    (fun b _ => by simp [decodeQuiz_encodeQuiz])

/-- Helper: the results list decodes back from its encoding. -/
theorem decodeResults_encodeResults (rs : List StudentResult) :
    (decodeResults (encodeResults rs)) = some rs := by
  simp only [encodeResults, decodeResults]
  exact mapOpt_map_eq_some _ _ rs
    (fun b _ => decodeResult_encodeResult b)

/-- Claim C8 counterexample: on the state whose professors map is empty,
reloading after saving seeds the default test professor, so load after
save is not the identity on every stored state. -/
theorem load_after_save_not_identity :
    loadDataFromStorage (saveDataToStorage initialState) initialState ≠
      initialState := by
  decide

/-- Claim C8 (amended): for every stored state whose professors map has
at least one entry, serializing the professors, quizzes and results to
the persisted layout and reloading reproduces the state field-for-field;
in particular every Quiz and every Result round-trips without loss.  On
an empty professors map the load seeds a default professor instead. -/
theorem load_after_save_identity (st : AppState)
    (h : st.professors ≠ []) :
    loadDataFromStorage (saveDataToStorage st) st = st := by
  have hlen : st.professors.length > 0 :=
    List.length_pos.mpr h
  simp [loadDataFromStorage, saveDataToStorage,
        decodeProfessors_encodeProfessors, decodeQuizzes_encodeQuizzes,
        decodeResults_encodeResults, hlen]

/-- Witness for the amended C8: the populated database state — one
professor, one quiz with optional explanations absent, one result —
reloads identically after saving. -/
theorem load_after_save_identity_witness :
    storedState.professors ≠ [] ∧
    loadDataFromStorage (saveDataToStorage storedState) storedState =
      storedState :=
  ⟨by decide, load_after_save_identity storedState (by decide)⟩
